import Mathlib

/-!
Verification development for the SFTP bridge repository.

It embeds, as executable Lean definitions, the two core source files:

* `src/lib/sftpClient.js` -- the browser-side `SFTPClient` class: its
  string-keyed event-listener table (`on` / `once` / `off` / `_emitEvent`),
  the per-operation request flows (`connect`, `listFiles`, `disconnect`, ...)
  and the base64 transfer codec (`btoa` / `atob` on byte strings).
* `server/server.js` -- the bridge: the per-channel registry of remote
  sessions (`activeConnections`), the `ws.on("message")` command switch,
  the ssh-client lifecycle handlers (ready / error / end / close) and the
  helper `formatFileSize`.

JavaScript promises are modelled by a settle-once cell, `setTimeout`
timers by an explicit active flag, and each callback by a tagged handler
value; machine floats appearing in `formatFileSize` are modelled by exact
arithmetic (the inputs of interest make both computations agree).
-/

namespace SFTPVerify

/-! ### Client event-listener table (src/lib/sftpClient.js, constructor and
`on` / `once` / `off` / `_emitEvent`)

A callback is identified by a tag: `plainH id` for a callback registered
with `on`, `onceH id` for the wrapper closure that `once` builds around a
callback (the wrapper deregisters itself, then invokes the inner
callback).  The listener table is the JS object `this.eventListeners`:
an association list from event-name strings to callback lists.  Property
lookup on a missing key yields `none` (JS `undefined`). -/

inductive CHandler : Type
| plainH (id : Nat)
| onceH (id : Nat)
deriving DecidableEq

abbrev EventTable := List (String × List CHandler)

/-- JS property read `this.eventListeners[event]` (first matching key). -/
def tblGet : EventTable → String → Option (List CHandler)
| [], _ => none
| (k, l) :: rest, e => if e = k then some l else tblGet rest e

/-- JS property write `this.eventListeners[event] = l`.  In the source this
assignment only ever runs under a guard that the key is already present,
and accordingly it replaces the value of an existing key and leaves a
table without the key unchanged. -/
def tblSet : EventTable → String → List CHandler → EventTable
| [], _, _ => []
| (k, l0) :: rest, e, l => if e = k then (k, l) :: rest else (k, l0) :: tblSet rest e l

/-- The eight keys initialized in the `SFTPClient` constructor. -/
def clientEventKeys : List String :=
  ["connect", "disconnect", "error", "fileList", "fileContent",
   "uploadSuccess", "deleteSuccess", "mkdirSuccess"]

/-- The constructor's `this.eventListeners`: each key maps to `[]`. -/
def initCTable : EventTable := clientEventKeys.map fun k => (k, [])

namespace SFTPClient

/-- `on(event, callback)`: pushes the callback onto the list when the key
exists; a missing key means the registration is silently dropped. -/
def onEvent (t : EventTable) (e : String) (h : CHandler) : EventTable :=
  match tblGet t e with
  | some l => tblSet t e (l ++ [h])
  | none => t

/-- `off(event, callback)`: filters the callback out of the list when the
key exists. -/
def offEvent (t : EventTable) (e : String) (h : CHandler) : EventTable :=
  match tblGet t e with
  | some l => tblSet t e (l.filter fun cb => cb ≠ h)
  | none => t

/-- `once(event, callback)`: registers the self-removing wrapper closure
around callback `id` via `on`. -/
def onceEvent (t : EventTable) (e : String) (id : Nat) : EventTable :=
  onEvent t e (.onceH id)

/-- `_emitEvent(event, data)`: snapshots the listener list and invokes each
callback in order.  A `once` wrapper first calls `off` on itself, so the
resulting table has every wrapper of the snapshot removed; the returned
list is the invocation order.  A missing key invokes nobody. -/
def emitEvent (t : EventTable) (e : String) : EventTable × List CHandler :=
  match tblGet t e with
  | some l => (l.foldl (fun acc h => match h with
      | .onceH i => offEvent acc e (.onceH i)
      | .plainH _ => acc) t, l)
  | none => (t, [])

end SFTPClient

/-- Callback `h` is currently registered for event `e`. -/
def registered (t : EventTable) (e : String) (h : CHandler) : Prop :=
  ∃ l, tblGet t e = some l ∧ h ∈ l

/-- The key set of the listener table. -/
def keysOf (t : EventTable) : List String := t.map Prod.fst

/-! Basic lemmas about the table operations. -/

theorem tblSet_keys (t : EventTable) (e : String) (l : List CHandler) :
    keysOf (tblSet t e l) = keysOf t := by
  induction t with
  | nil => rfl
  | cons p rest ih =>
    obtain ⟨k, l0⟩ := p
    simp only [tblSet]
    split
    · rfl
    · simp [keysOf] at ih ⊢; exact ih

theorem tblGet_set_self (t : EventTable) (e : String) (l0 l : List CHandler)
    (h : tblGet t e = some l0) : tblGet (tblSet t e l) e = some l := by
  induction t with
  | nil => simp [tblGet] at h
  | cons p rest ih =>
    obtain ⟨k, lk⟩ := p
    simp only [tblGet, tblSet] at h ⊢
    by_cases hk : e = k
    · simp [hk, tblGet]
    · simp only [hk, if_false] at h ⊢
      simp only [tblGet, hk, if_false]
      exact ih h

theorem tblGet_set_other (t : EventTable) (e e' : String) (l : List CHandler)
    (h : e' ≠ e) : tblGet (tblSet t e l) e' = tblGet t e' := by
  induction t with
  | nil => rfl
  | cons p rest ih =>
    obtain ⟨k, lk⟩ := p
    simp only [tblGet, tblSet]
    by_cases hk : e = k
    · subst hk
      simp [h, tblGet]
    · simp only [hk, if_false, tblGet]
      split
      · rfl
      · exact ih

theorem tblSet_missing (t : EventTable) (e : String) (l : List CHandler)
    (h : tblGet t e = none) : tblSet t e l = t := by
  induction t with
  | nil => rfl
  | cons p rest ih =>
    obtain ⟨k, lk⟩ := p
    simp only [tblGet] at h
    simp only [tblSet]
    by_cases hk : e = k
    · simp [hk] at h
    · simp only [hk, if_false] at h ⊢
      rw [ih h]

/-! Lemmas about `on` / `off` / `once` / `_emitEvent`. -/

theorem onEvent_missing (t : EventTable) (e : String) (h : CHandler)
    (hm : tblGet t e = none) : SFTPClient.onEvent t e h = t := by
  simp [SFTPClient.onEvent, hm]

theorem offEvent_missing (t : EventTable) (e : String) (h : CHandler)
    (hm : tblGet t e = none) : SFTPClient.offEvent t e h = t := by
  simp [SFTPClient.offEvent, hm]

theorem onEvent_keys (t : EventTable) (e : String) (h : CHandler) :
    keysOf (SFTPClient.onEvent t e h) = keysOf t := by
  unfold SFTPClient.onEvent
  split
  · exact tblSet_keys ..
  · rfl

theorem offEvent_keys (t : EventTable) (e : String) (h : CHandler) :
    keysOf (SFTPClient.offEvent t e h) = keysOf t := by
  unfold SFTPClient.offEvent
  split
  · exact tblSet_keys ..
  · rfl

theorem tblGet_onEvent_self (t : EventTable) (e : String) (h : CHandler)
    (l : List CHandler) (hl : tblGet t e = some l) :
    tblGet (SFTPClient.onEvent t e h) e = some (l ++ [h]) := by
  simp only [SFTPClient.onEvent, hl]
  exact tblGet_set_self t e l _ hl

theorem tblGet_onEvent_other (t : EventTable) (e e' : String) (h : CHandler)
    (hne : e' ≠ e) : tblGet (SFTPClient.onEvent t e h) e' = tblGet t e' := by
  unfold SFTPClient.onEvent
  split
  · exact tblGet_set_other _ _ _ _ hne
  · rfl

theorem tblGet_offEvent_none (t : EventTable) (e e' : String) (h : CHandler)
    (hm : tblGet t e' = none) : tblGet (SFTPClient.offEvent t e h) e' = none := by
  unfold SFTPClient.offEvent
  split
  · by_cases hne : e' = e
    · subst hne
      simp_all
    · rw [tblGet_set_other _ _ _ _ hne]
      exact hm
  · exact hm

theorem registered_offEvent (t : EventTable) (e e' : String) (h h' : CHandler)
    (hr : registered (SFTPClient.offEvent t e h) e' h') : registered t e' h' := by
  obtain ⟨l, hl, hmem⟩ := hr
  unfold SFTPClient.offEvent at hl
  split at hl
  · next l0 hget =>
    by_cases hne : e' = e
    · subst hne
      rw [tblGet_set_self t e' l0 _ hget] at hl
      obtain rfl : (l0.filter fun cb => cb ≠ h) = l := by injection hl
      exact ⟨l0, hget, (List.mem_filter.mp hmem).1⟩
    · rw [tblGet_set_other _ _ _ _ hne] at hl
      exact ⟨l, hl, hmem⟩
  · exact ⟨l, hl, hmem⟩

theorem not_registered_offEvent_self (t : EventTable) (e : String) (h : CHandler) :
    ¬ registered (SFTPClient.offEvent t e h) e h := by
  intro hr
  obtain ⟨l, hl, hmem⟩ := hr
  unfold SFTPClient.offEvent at hl
  split at hl
  · next l0 hget =>
    rw [tblGet_set_self t e l0 _ hget] at hl
    obtain rfl : (l0.filter fun cb => cb ≠ h) = l := by injection hl
    have := (List.mem_filter.mp hmem).2
    simp at this
  · next hget =>
    rw [hget] at hl
    cases hl

/-- Emitting on a missing key is a no-op that invokes nobody. -/
theorem emitEvent_missing (t : EventTable) (e : String)
    (hm : tblGet t e = none) : SFTPClient.emitEvent t e = (t, []) := by
  simp [SFTPClient.emitEvent, hm]

/-- The fold inside `_emitEvent` only ever removes callbacks. -/
theorem registered_emitFold (l : List CHandler) (t : EventTable) (e e' : String)
    (h' : CHandler)
    (hr : registered (l.foldl (fun acc h => match h with
        | .onceH i => SFTPClient.offEvent acc e (.onceH i)
        | .plainH _ => acc) t) e' h') : registered t e' h' := by
  induction l generalizing t with
  | nil => exact hr
  | cons hd tl ih =>
    simp only [List.foldl_cons] at hr
    have := ih _ hr
    cases hd with
    | onceH i => exact registered_offEvent _ e e' _ h' this
    | plainH i => exact this

theorem registered_emitEvent (t : EventTable) (e e' : String) (h' : CHandler)
    (hr : registered (SFTPClient.emitEvent t e).1 e' h') : registered t e' h' := by
  unfold SFTPClient.emitEvent at hr
  split at hr
  · exact registered_emitFold _ _ _ _ _ hr
  · exact hr

theorem tblGet_emitEvent_none (t : EventTable) (e e' : String)
    (hm : tblGet t e' = none) : tblGet (SFTPClient.emitEvent t e).1 e' = none := by
  unfold SFTPClient.emitEvent
  split
  · next l hget =>
    simp only
    clear hget
    induction l generalizing t with
    | nil => exact hm
    | cons hd tl ih =>
      simp only [List.foldl_cons]
      cases hd with
      | onceH i => exact ih _ (tblGet_offEvent_none t e e' _ hm)
      | plainH i => exact ih t hm
  · exact hm

/-- After `_emitEvent`, every `once` wrapper that was in the snapshot is no
longer registered for the emitted event. -/
theorem emitEvent_removes_onceH (t : EventTable) (e : String) (i : Nat)
    (l : List CHandler) (hget : tblGet t e = some l) (hmem : CHandler.onceH i ∈ l) :
    ¬ registered (SFTPClient.emitEvent t e).1 e (.onceH i) := by
  unfold SFTPClient.emitEvent
  rw [hget]
  simp only
  clear hget
  induction l generalizing t with
  | nil => simp at hmem
  | cons hd tl ih =>
    simp only [List.foldl_cons]
    rcases List.mem_cons.mp hmem with heq | htl
    · subst heq
      simp only
      intro hr
      -- after the self-removal, later steps only remove further
      exact not_registered_offEvent_self t e (.onceH i) (registered_emitFold tl _ e e _ hr)
    · cases hd with
      | onceH j => exact ih _ htl
      | plainH j => exact ih t htl

theorem emitEvent_keys (t : EventTable) (e : String) :
    keysOf (SFTPClient.emitEvent t e).1 = keysOf t := by
  unfold SFTPClient.emitEvent
  split
  · next l hget =>
    simp only
    clear hget
    induction l generalizing t with
    | nil => rfl
    | cons hd tl ih =>
      simp only [List.foldl_cons]
      cases hd with
      | onceH i => rw [ih]; exact offEvent_keys _ _ _
      | plainH i => exact ih t
  · rfl

/-- For event names outside the eight constructor keys, the initial table
has no entry (JS property lookup yields `undefined`). -/
theorem tblGet_initCTable_none (e : String) (he : e ∉ clientEventKeys) :
    tblGet initCTable e = none := by
  simp only [clientEventKeys, List.mem_cons, not_or, List.not_mem_nil] at he
  obtain ⟨h1, h2, h3, h4, h5, h6, h7, h8, -⟩ := he
  simp [initCTable, clientEventKeys, tblGet, h1, h2, h3, h4, h5, h6, h7, h8]

/-! ### Client connection state (src/lib/sftpClient.js)

`isConnected` / `connectionId` are the fields of the singleton
`SFTPClient` instance; `table` is its listener table. -/

structure ClientState where
  isConnected : Bool
  connectionId : Option String
  table : EventTable
deriving DecidableEq

/-- The state of the module-level singleton right after the constructor. -/
def freshClient : ClientState :=
  { isConnected := false, connectionId := none, table := initCTable }

/-- The two registrations `connect` performs before sending the connect
message: `this.once("connect_success", onConnectSuccess)` and
`this.once("connect_error", onConnectError)` (wrapper ids 2 and 3). -/
def connectRegister (t : EventTable) : EventTable :=
  SFTPClient.onceEvent (SFTPClient.onceEvent t "connect_success" 2) "connect_error" 3

/-- `onConnectSuccess`: sets `isConnected`, stores the session token from
the message, resolves the connect promise. -/
def connectSuccessEffect (cid : String) (s : ClientState) : ClientState :=
  { s with isConnected := true, connectionId := some cid }

/-- The guard at the top of `listFiles` (and all other operations):
a request is sent only when `this.isConnected` holds; otherwise the
call rejects immediately with "Not connected to any SFTP server". -/
def listFilesAllowed (s : ClientState) : Bool := s.isConnected

/-- `_handleMessage` for a message of type `connect_success`: the parsed
message's type is emitted through `_emitEvent`, the invoked callbacks
(there is at most the `once` wrapper of `connect`, id 2) run
`connectSuccessEffect`. -/
def deliverConnectSuccess (cid : String) (s : ClientState) : ClientState :=
  let p := SFTPClient.emitEvent s.table "connect_success"
  let s1 := { s with table := p.1 }
  if CHandler.onceH 2 ∈ p.2 then connectSuccessEffect cid s1 else s1

/-- `disconnect()`: with no active session it returns a resolved promise at
once (second component `true`); otherwise it registers the `once`
wrapper (id 5) for the `disconnect` event and sends the disconnect
message, leaving the promise pending. -/
def disconnectCall (s : ClientState) : ClientState × Bool :=
  if s.isConnected then
    ({ s with table := SFTPClient.onceEvent s.table "disconnect" 5 }, false)
  else (s, true)

/-- Arrival of the server's `disconnect` message: `_emitEvent "disconnect"`;
the `once` wrapper of `disconnect()` (id 5), when invoked, clears
`isConnected` and the remembered session token and resolves. -/
def deliverDisconnect (s : ClientState) : ClientState :=
  let p := SFTPClient.emitEvent s.table "disconnect"
  let s1 := { s with table := p.1 }
  if CHandler.onceH 5 ∈ p.2 then
    { s1 with isConnected := false, connectionId := none }
  else s1

/-- A whole `disconnect()` round: immediate resolution when not connected,
otherwise the server's disconnect response is delivered. -/
def disconnectFlow (s : ClientState) : ClientState :=
  let (s1, immediate) := disconnectCall s
  if immediate then s1 else deliverDisconnect s1

/-! ### Request/response correlator trace model (src/lib/sftpClient.js,
`listFiles` and the analogous operations)

Every operation follows the same shape: set a timeout, register a `once`
wrapper for the expected success kind (wrapper id 0) and one for the
generic error kind (wrapper id 1), send the command.  A JS promise
settles at most once; `settled` records the first fulfillment and
`settleCount` the number of state changes of the promise. -/

inductive Fulfill : Type
| success
| failure
| timedOut
deriving DecidableEq

structure ReqState where
  table : EventTable
  timeoutActive : Bool
  settled : Option Fulfill
  settleCount : Nat
deriving DecidableEq

/-- Resolve/reject: a settled promise ignores further fulfillments. -/
def settle (s : ReqState) (f : Fulfill) : ReqState :=
  match s.settled with
  | some _ => s
  | none => { s with settled := some f, settleCount := s.settleCount + 1 }

/-- The operation's registrations: `once(successKind, handler0)` and
`once(errorKind, handler1)`, plus the freshly armed timeout. -/
def pendingStart (sk ek : String) (t : EventTable) : ReqState :=
  { table := SFTPClient.onceEvent (SFTPClient.onceEvent t sk 0) ek 1,
    timeoutActive := true, settled := none, settleCount := 0 }

/-- Effects of the two one-shot callbacks: both clear the timeout first,
then resolve (success kind) or reject (error kind); any other callback
does not touch this request. -/
def reqEffect (h : CHandler) (s : ReqState) : ReqState :=
  if h = .onceH 0 then settle { s with timeoutActive := false } .success
  else if h = .onceH 1 then settle { s with timeoutActive := false } .failure
  else s

inductive REvent : Type
| msg (kind : String)
| timerFire
deriving DecidableEq

/-- One step of the client event loop as seen by this request: a message
arrival emits its kind and runs the invoked callbacks in order; the
timeout, when it fires while armed, rejects with the timeout error. -/
def reqStep (s : ReqState) (e : REvent) : ReqState :=
  match e with
  | .msg k =>
    let p := SFTPClient.emitEvent s.table k
    p.2.foldl (fun st h => reqEffect h st) { s with table := p.1 }
  | .timerFire =>
    if s.timeoutActive then settle { s with timeoutActive := false } .timedOut else s

def reqRun (s : ReqState) (events : List REvent) : ReqState :=
  events.foldl reqStep s

/-! Further registration lemmas. -/

theorem not_registered_of_none (t : EventTable) (e : String) (h : CHandler)
    (hm : tblGet t e = none) : ¬ registered t e h := by
  rintro ⟨l, hl, -⟩
  rw [hm] at hl
  cases hl

theorem tblGet_mem (t : EventTable) (e : String) (l : List CHandler)
    (h : tblGet t e = some l) : (e, l) ∈ t := by
  induction t with
  | nil => cases h
  | cons p rest ih =>
    obtain ⟨k, lk⟩ := p
    simp only [tblGet] at h
    by_cases hk : e = k
    · subst hk
      simp only [if_pos rfl] at h
      obtain rfl : lk = l := by injection h
      exact List.mem_cons_self ..
    · simp only [hk, if_false] at h
      exact List.mem_cons_of_mem _ (ih h)

theorem not_registered_of_forall (t : EventTable) (h : CHandler)
    (hno : ∀ p ∈ t, h ∉ p.2) : ∀ k, ¬ registered t k h := by
  rintro k ⟨l, hl, hmem⟩
  exact hno (k, l) (tblGet_mem t k l hl) hmem

theorem registered_onEvent (t : EventTable) (e k : String) (h h' : CHandler)
    (hr : registered (SFTPClient.onEvent t e h) k h') :
    registered t k h' ∨ (k = e ∧ h' = h) := by
  by_cases hk : k = e
  · subst hk
    cases hget : tblGet t k with
    | none =>
      rw [onEvent_missing t k h hget] at hr
      exact Or.inl hr
    | some l =>
      obtain ⟨l', hl', hmem⟩ := hr
      rw [tblGet_onEvent_self t k h l hget] at hl'
      obtain rfl : l ++ [h] = l' := by injection hl'
      rcases List.mem_append.mp hmem with hin | hin
      · exact Or.inl ⟨l, hget, hin⟩
      · simp only [List.mem_singleton] at hin
        exact Or.inr ⟨rfl, hin⟩
  · obtain ⟨l', hl', hmem⟩ := hr
    rw [tblGet_onEvent_other t e k h hk] at hl'
    exact Or.inl ⟨l', hl', hmem⟩

theorem tblGet_of_mem_emit (t : EventTable) (k : String) (h : CHandler)
    (hm : h ∈ (SFTPClient.emitEvent t k).2) :
    tblGet t k = some (SFTPClient.emitEvent t k).2 := by
  unfold SFTPClient.emitEvent at hm ⊢
  split
  · next l hget => simp [hget]
  · next hget => simp [hget] at hm

/-! Promise-level lemmas for the correlator. -/

theorem settle_settled_some (s : ReqState) (f g : Fulfill)
    (h : s.settled = some f) : (settle s g).settled = some f := by
  unfold settle
  rw [h]
  exact h

theorem reqEffect_settled_some (h : CHandler) (s : ReqState) (f : Fulfill)
    (hs : s.settled = some f) : (reqEffect h s).settled = some f := by
  unfold reqEffect
  split_ifs
  · exact settle_settled_some _ _ _ hs
  · exact settle_settled_some _ _ _ hs
  · exact hs

theorem foldl_reqEffect_settled_some (l : List CHandler) (s : ReqState) (f : Fulfill)
    (hs : s.settled = some f) :
    (l.foldl (fun st h => reqEffect h st) s).settled = some f := by
  induction l generalizing s with
  | nil => exact hs
  | cons hd tl ih => exact ih _ (reqEffect_settled_some hd s f hs)

theorem foldl_reqEffect_table (l : List CHandler) (s : ReqState) :
    (l.foldl (fun st h => reqEffect h st) s).table = s.table := by
  induction l generalizing s with
  | nil => rfl
  | cons hd tl ih =>
    rw [List.foldl_cons, ih]
    unfold reqEffect
    split_ifs <;> (try unfold settle) <;> (try split) <;> rfl

theorem reqEffect_no_match (h : CHandler) (s : ReqState)
    (h0 : h ≠ .onceH 0) (h1 : h ≠ .onceH 1) : reqEffect h s = s := by
  simp [reqEffect, h0, h1]

theorem foldl_reqEffect_no_effect (l : List CHandler) (s : ReqState)
    (h0 : CHandler.onceH 0 ∉ l) (h1 : CHandler.onceH 1 ∉ l) :
    l.foldl (fun st h => reqEffect h st) s = s := by
  induction l generalizing s with
  | nil => rfl
  | cons hd tl ih =>
    simp only [List.mem_cons, not_or] at h0 h1
    rw [List.foldl_cons, reqEffect_no_match hd s (fun he => h0.1 he.symm) (fun he => h1.1 he.symm)]
    exact ih _ h0.2 h1.2

/-- The three promise-side facts preserved by every callback effect:
the settle count mirrors the promise state, a cleared timeout implies a
settled promise, and a promise settled by a handler has its timeout
cleared. -/
def PromInv (s : ReqState) : Prop :=
  s.settleCount = (if s.settled.isSome then 1 else 0)
  ∧ (s.timeoutActive = false → s.settled.isSome)
  ∧ ((s.settled = some .success ∨ s.settled = some .failure) → s.timeoutActive = false)

theorem settle_cleared_prom (s : ReqState) (f : Fulfill) (hp : PromInv s) :
    PromInv (settle { s with timeoutActive := false } f) := by
  obtain ⟨h1, h2, h3⟩ := hp
  unfold settle
  cases hs : s.settled with
  | some g =>
    refine ⟨by simp [hs] at h1 ⊢; exact h1, by simp [hs], fun _ => rfl⟩
  | none =>
    refine ⟨by simp [hs] at h1 ⊢; exact h1, by simp, fun _ => rfl⟩

theorem reqEffect_prom (h : CHandler) (s : ReqState) (hp : PromInv s) :
    PromInv (reqEffect h s) := by
  unfold reqEffect
  split_ifs
  · exact settle_cleared_prom s _ hp
  · exact settle_cleared_prom s _ hp
  · exact hp

theorem foldl_reqEffect_prom (l : List CHandler) (s : ReqState) (hp : PromInv s) :
    PromInv (l.foldl (fun st h => reqEffect h st) s) := by
  induction l generalizing s with
  | nil => exact hp
  | cons hd tl ih => exact ih _ (reqEffect_prom hd s hp)

/-- The full invariant of one pending request with success kind `sk` and
error kind `ek`: the promise bookkeeping of `PromInv`, plus: the success
kind has no table entry at all (its `once` registration was dropped),
the fresh wrapper 0 is registered nowhere, wrapper 1 is registered at
most under `ek`, and once the promise was settled by a handler the
wrapper is deregistered. -/
structure ReqInv (sk ek : String) (s : ReqState) : Prop where
  prom : PromInv s
  sk_none : tblGet s.table sk = none
  no_h0 : ∀ k, ¬ registered s.table k (.onceH 0)
  h1_only_ek : ∀ k, k ≠ ek → ¬ registered s.table k (.onceH 1)
  h1_gone : (s.settled = some .success ∨ s.settled = some .failure) →
    ¬ registered s.table ek (.onceH 1)

theorem pendingStart_inv (sk ek : String) (t0 : EventTable)
    (hsk : tblGet t0 sk = none)
    (hfresh : ∀ p ∈ t0, CHandler.onceH 0 ∉ p.2 ∧ CHandler.onceH 1 ∉ p.2) :
    ReqInv sk ek (pendingStart sk ek t0) := by
  have hno0 : ∀ k, ¬ registered t0 k (.onceH 0) :=
    not_registered_of_forall t0 _ (fun p hp => (hfresh p hp).1)
  have hno1 : ∀ k, ¬ registered t0 k (.onceH 1) :=
    not_registered_of_forall t0 _ (fun p hp => (hfresh p hp).2)
  have hdrop : SFTPClient.onEvent t0 sk (.onceH 0) = t0 := onEvent_missing t0 sk _ hsk
  constructor
  · exact ⟨rfl, by simp [pendingStart], by simp [pendingStart]⟩
  · show tblGet (SFTPClient.onEvent (SFTPClient.onEvent t0 sk (.onceH 0)) ek (.onceH 1)) sk = none
    rw [hdrop]
    by_cases hke : sk = ek
    · subst hke
      rw [onEvent_missing t0 sk _ hsk]
      exact hsk
    · rw [tblGet_onEvent_other t0 ek sk _ hke]
      exact hsk
  · intro k hr
    have hr2 : registered (SFTPClient.onEvent (SFTPClient.onEvent t0 sk (.onceH 0)) ek
        (.onceH 1)) k (.onceH 0) := hr
    rw [hdrop] at hr2
    rcases registered_onEvent t0 ek k _ _ hr2 with hreg | ⟨-, habs⟩
    · exact hno0 k hreg
    · cases habs
  · intro k hk hr
    have hr2 : registered (SFTPClient.onEvent (SFTPClient.onEvent t0 sk (.onceH 0)) ek
        (.onceH 1)) k (.onceH 1) := hr
    rw [hdrop] at hr2
    rcases registered_onEvent t0 ek k _ _ hr2 with hreg | ⟨hke, -⟩
    · exact hno1 k hreg
    · exact hk hke
  · rintro (habs | habs) <;> cases habs

theorem settle_table (s : ReqState) (f : Fulfill) : (settle s f).table = s.table := by
  unfold settle
  split <;> rfl

theorem settle_settled_of (s : ReqState) (f g : Fulfill)
    (h : (settle s f).settled = some g) :
    s.settled = some g ∨ (s.settled = none ∧ g = f) := by
  unfold settle at h
  split at h
  · exact Or.inl h
  · next heq =>
    right
    refine ⟨heq, ?_⟩
    injection h with h
    exact h.symm

theorem settle_timedOut_inv (sk ek : String) (s : ReqState) (inv : ReqInv sk ek s) :
    ReqInv sk ek (settle { s with timeoutActive := false } .timedOut) := by
  refine ⟨settle_cleared_prom s _ inv.prom, ?_, ?_, ?_, ?_⟩
  · rw [settle_table]
    exact inv.sk_none
  · intro k hr
    rw [settle_table] at hr
    exact inv.no_h0 k hr
  · intro k hk hr
    rw [settle_table] at hr
    exact inv.h1_only_ek k hk hr
  · intro hcase
    have hcase2 : s.settled = some .success ∨ s.settled = some .failure := by
      rcases hcase with hc | hc
      · rcases settle_settled_of _ _ _ hc with hs | ⟨-, habs⟩
        · exact Or.inl hs
        · cases habs
      · rcases settle_settled_of _ _ _ hc with hs | ⟨-, habs⟩
        · exact Or.inr hs
        · cases habs
    rw [settle_table]
    exact inv.h1_gone hcase2

theorem reqStep_inv (sk ek : String) (s : ReqState) (e : REvent)
    (inv : ReqInv sk ek s) : ReqInv sk ek (reqStep s e) := by
  cases e with
  | timerFire =>
    show ReqInv sk ek (if s.timeoutActive then
      settle { s with timeoutActive := false } .timedOut else s)
    by_cases hac : s.timeoutActive
    · rw [if_pos hac]
      exact settle_timedOut_inv sk ek s inv
    · rw [if_neg hac]
      exact inv
  | msg k =>
    obtain ⟨hp, sk_none, no_h0, h1_only, h1_gone⟩ := inv
    show ReqInv sk ek (((SFTPClient.emitEvent s.table k).2).foldl
      (fun st h => reqEffect h st) { s with table := (SFTPClient.emitEvent s.table k).1 })
    have htbl := foldl_reqEffect_table (SFTPClient.emitEvent s.table k).2
      { s with table := (SFTPClient.emitEvent s.table k).1 }
    have hprom : PromInv (((SFTPClient.emitEvent s.table k).2).foldl
        (fun st h => reqEffect h st) { s with table := (SFTPClient.emitEvent s.table k).1 }) :=
      foldl_reqEffect_prom _ _ ⟨hp.1, hp.2.1, hp.2.2⟩
    refine ⟨hprom, ?_, ?_, ?_, ?_⟩
    · rw [htbl]
      exact tblGet_emitEvent_none s.table k sk sk_none
    · intro k2 hr
      rw [htbl] at hr
      exact no_h0 k2 (registered_emitEvent s.table k k2 _ hr)
    · intro k2 hk2 hr
      rw [htbl] at hr
      exact h1_only k2 hk2 (registered_emitEvent s.table k k2 _ hr)
    · intro hcase
      by_cases hmem1 : CHandler.onceH 1 ∈ (SFTPClient.emitEvent s.table k).2
      · -- the error wrapper was invoked: _emitEvent removed it
        have hget := tblGet_of_mem_emit s.table k _ hmem1
        have hkek : k = ek := by
          by_contra hkek
          exact h1_only k hkek ⟨_, hget, hmem1⟩
        subst hkek
        rw [htbl]
        exact emitEvent_removes_onceH s.table k 1 _ hget hmem1
      · -- no effectful wrapper invoked: the promise fields are untouched
        have hmem0 : CHandler.onceH 0 ∉ (SFTPClient.emitEvent s.table k).2 := by
          intro hmem0
          exact no_h0 k ⟨_, tblGet_of_mem_emit s.table k _ hmem0, hmem0⟩
        rw [foldl_reqEffect_no_effect _ _ hmem0 hmem1] at hcase ⊢
        intro hr
        exact h1_gone hcase (registered_emitEvent s.table k ek _ hr)

theorem reqRun_inv (sk ek : String) (s : ReqState) (events : List REvent)
    (inv : ReqInv sk ek s) : ReqInv sk ek (reqRun s events) := by
  induction events generalizing s with
  | nil => exact inv
  | cons e tl ih => exact ih _ (reqStep_inv sk ek s e inv)

theorem reqStep_settled_some (s : ReqState) (e : REvent) (f : Fulfill)
    (h : s.settled = some f) : (reqStep s e).settled = some f := by
  cases e with
  | timerFire =>
    show (if s.timeoutActive then
      settle { s with timeoutActive := false } .timedOut else s).settled = some f
    split
    · exact settle_settled_some _ _ _ h
    · exact h
  | msg k => exact foldl_reqEffect_settled_some _ _ f h

theorem reqRun_settled_some (s : ReqState) (events : List REvent) (f : Fulfill)
    (h : s.settled = some f) : (reqRun s events).settled = some f := by
  induction events generalizing s with
  | nil => exact h
  | cons e tl ih => exact ih _ (reqStep_settled_some s e f h)

/-! ### Base64 transfer codec

Client side: `btoa(String.fromCharCode(...new Uint8Array(content)))` on
upload and `atob(data.content)` on download.  Server side:
`Buffer.from(content, "base64")` on upload and
`fileContent.toString("base64")` on download.  All four are standard
base64 over byte sequences; bytes are `Nat`s below 256. -/

def b64Alphabet : List Char :=
  ['A', 'B', 'C', 'D', 'E', 'F', 'G', 'H', 'I', 'J', 'K', 'L', 'M',
   'N', 'O', 'P', 'Q', 'R', 'S', 'T', 'U', 'V', 'W', 'X', 'Y', 'Z',
   'a', 'b', 'c', 'd', 'e', 'f', 'g', 'h', 'i', 'j', 'k', 'l', 'm',
   'n', 'o', 'p', 'q', 'r', 's', 't', 'u', 'v', 'w', 'x', 'y', 'z',
   '0', '1', '2', '3', '4', '5', '6', '7', '8', '9', '+', '/']

def b64EncodeChar (n : Nat) : Char := b64Alphabet.getD n '?'

def idxOf : List Char → Char → Option Nat
| [], _ => none
| a :: rest, c => if a = c then some 0 else (idxOf rest c).map (· + 1)

def b64DecodeChar (c : Char) : Option Nat := idxOf b64Alphabet c

/-- Base64 encoding of a byte sequence, with `=` padding, three input
bytes per four output characters. -/
def b64encode : List Nat → List Char
| [] => []
| [a] => [b64EncodeChar (a / 4), b64EncodeChar (a % 4 * 16), '=', '=']
| [a, b] => [b64EncodeChar (a / 4), b64EncodeChar (a % 4 * 16 + b / 16),
             b64EncodeChar (b % 16 * 4), '=']
| a :: b :: c :: rest =>
    b64EncodeChar (a / 4) :: b64EncodeChar (a % 4 * 16 + b / 16) ::
    b64EncodeChar (b % 16 * 4 + c / 64) :: b64EncodeChar (c % 64) :: b64encode rest

/-- Base64 decoding of a padded base64 text back to the byte sequence;
`none` on text that is not valid padded base64. -/
def b64decode : List Char → Option (List Nat)
| [] => some []
| c1 :: c2 :: c3 :: c4 :: rest =>
  match b64DecodeChar c1, b64DecodeChar c2 with
  | some d1, some d2 =>
    if c3 = '=' then
      if c4 = '=' ∧ rest = [] then some [d1 * 4 + d2 / 16] else none
    else
      match b64DecodeChar c3 with
      | some d3 =>
        if c4 = '=' then
          if rest = [] then some [d1 * 4 + d2 / 16, d2 % 16 * 16 + d3 / 4] else none
        else
          match b64DecodeChar c4, b64decode rest with
          | some d4, some bs =>
            some ((d1 * 4 + d2 / 16) :: (d2 % 16 * 16 + d3 / 4) :: (d3 % 4 * 64 + d4) :: bs)
          | _, _ => none
      | none => none
  | _, _ => none
| _ => none

/-! ### Bridge server (server/server.js) -/

/-- A registry entry `{client, ws}`; `hasSftp` records whether the
session-level handle was attached (`entry.sftp = sftp`). -/
structure SEntry where
  hasSftp : Bool
deriving DecidableEq

/-- `activeConnections`: a map from channel identity to its entry. -/
abbrev Registry := List (String × SEntry)

def regGet : Registry → String → Option SEntry
| [], _ => none
| (k, v) :: rest, cid => if cid = k then some v else regGet rest cid

/-- `Map.set`: replace the value of an existing key or append a new one. -/
def regSet : Registry → String → SEntry → Registry
| [], cid, v => [(cid, v)]
| (k, v0) :: rest, cid, v =>
  if cid = k then (k, v) :: rest else (k, v0) :: regSet rest cid v

/-- `Map.delete` (keys are unique in a JS Map; removal drops the key). -/
def regDel : Registry → String → Registry
| [], _ => []
| (k, v) :: rest, cid => if k = cid then regDel rest cid else (k, v) :: regDel rest cid

/-- Server-to-client messages (`sendResponse(type, data)`). -/
inductive SResponse : Type
| connectSuccess (connectionId : String)
| connectError (error : String)
| fileListMsg (path : String)
| fileContentMsg (path : String) (content : List Char) (size : Nat)
| uploadSuccessMsg (path : String)
| deleteSuccessMsg (path : String)
| mkdirSuccessMsg (path : String)
| disconnectMsg (message : String)
| errorMsg (error : String)
deriving DecidableEq

/-- Parsed client-to-server commands (`data.type` and its fields);
`other` is any unrecognized `type` string. -/
inductive SCommand : Type
| connectCmd (host : String) (port : Option Nat) (username password : String)
| listFilesCmd (path : Option String)
| downloadFileCmd (remotePath : String)
| uploadFileCmd (remotePath : String) (content : List Char)
| deleteFileCmd (path : String) (isDirectory : Bool)
| createDirectoryCmd (path : String)
| disconnectCmd
| other (kind : String)
deriving DecidableEq

/-- Calls made against the remote ssh/sftp handles. -/
inductive RemoteOp : Type
| sshConnect (host : String) (port : Nat) (username : String)
| readdir (path : String)
| stat (remotePath : String)
| writeStream (remotePath : String) (bytes : List Nat)
| rmdir (path : String)
| unlink (path : String)
| mkdir (path : String)
| endConn
deriving DecidableEq

/-- The per-channel handler closure state: the channel identity and the
local `sftpClient` variable (`none` in JS ⟷ `hasClient = false`). -/
structure ServerConn where
  connectionId : String
  hasClient : Bool
deriving DecidableEq

structure DispatchResult where
  registry : Registry
  conn : ServerConn
  responses : List SResponse
  remoteOps : List RemoteOp
deriving DecidableEq

/-- The session guard present in every non-connect case:
`!connection || !connection.sftp`. -/
def hasSession (reg : Registry) (cid : String) : Bool :=
  match regGet reg cid with
  | some e => e.hasSftp
  | none => false

def noSessionResult (reg : Registry) (c : ServerConn) : DispatchResult :=
  { registry := reg, conn := c,
    responses := [.errorMsg "No active SFTP connection"], remoteOps := [] }

/-- The `switch (data.type)` of `ws.on("message")`: the synchronous part
of each case.  Asynchronous completions (`readdir`, stat/stream,
ssh lifecycle events) are modelled by the handler functions below. -/
def handleCommand (reg : Registry) (c : ServerConn) (cmd : SCommand) : DispatchResult :=
  match cmd with
  | .connectCmd host port username _password =>
    -- tears down a pre-existing client, then creates a new ssh client,
    -- installs the lifecycle handlers and starts the handshake
    { registry := reg, conn := { c with hasClient := true },
      responses := [],
      remoteOps := (if c.hasClient then [.endConn] else [])
        ++ [.sshConnect host (port.getD 22) username] }
  | .listFilesCmd path =>
    if hasSession reg c.connectionId then
      { registry := reg, conn := c, responses := [],
        remoteOps := [.readdir (path.getD "/")] }
    else noSessionResult reg c
  | .downloadFileCmd remotePath =>
    if hasSession reg c.connectionId then
      { registry := reg, conn := c, responses := [], remoteOps := [.stat remotePath] }
    else noSessionResult reg c
  | .uploadFileCmd remotePath content =>
    if hasSession reg c.connectionId then
      -- `Buffer.from(content, "base64")` is total; valid padded base64
      -- (the only shape the client produces) decodes exactly
      { registry := reg, conn := c, responses := [],
        remoteOps := [.writeStream remotePath ((b64decode content).getD [])] }
    else noSessionResult reg c
  | .deleteFileCmd path isDirectory =>
    if hasSession reg c.connectionId then
      { registry := reg, conn := c, responses := [],
        remoteOps := [if isDirectory then .rmdir path else .unlink path] }
    else noSessionResult reg c
  | .createDirectoryCmd path =>
    if hasSession reg c.connectionId then
      { registry := reg, conn := c, responses := [], remoteOps := [.mkdir path] }
    else noSessionResult reg c
  | .disconnectCmd =>
    if c.hasClient then
      { registry := regDel reg c.connectionId, conn := { c with hasClient := false },
        responses := [.disconnectMsg "Disconnected"], remoteOps := [.endConn] }
    else
      { registry := reg, conn := c,
        responses := [.disconnectMsg "Disconnected"], remoteOps := [] }
  | .other _ =>
    { registry := reg, conn := c,
      responses := [.errorMsg "Unknown command"], remoteOps := [] }

/-- The whole `ws.on("message")` callback: `JSON.parse` and the switch
inside `try`, with the `catch` sending the generic error.  A message
that does not parse is `none`.  The function is total: no input makes
the handler throw. -/
def handleRaw (reg : Registry) (c : ServerConn) (parsed : Option SCommand) : DispatchResult :=
  match parsed with
  | some cmd => handleCommand reg c cmd
  | none =>
    { registry := reg, conn := c,
      responses := [.errorMsg "Invalid message format or server error"], remoteOps := [] }

/-! The ssh-client lifecycle handlers installed by the `connect` case. -/

/-- `.on("ready", ...)`: stores `{client, ws}` in the registry, then
requests the sftp session; on sftp success the entry gains its session
handle and `connect_success` is sent, on sftp error (`sftpErr`)
`connect_error` is sent and the entry stays without a session handle. -/
def readyHandler (reg : Registry) (cid : String) (sftpErr : Option String) :
    Registry × List SResponse :=
  let reg1 := regSet reg cid { hasSftp := false }
  match sftpErr with
  | some msg => (reg1, [.connectError msg])
  | none => (regSet reg1 cid { hasSftp := true }, [.connectSuccess cid])

/-- `.on("error", ...)`: sends `connect_error`; the registry is untouched. -/
def errorHandler (reg : Registry) (_cid : String) (msg : String) :
    Registry × List SResponse :=
  (reg, [.connectError msg])

/-- `.on("end", ...)`: sends the disconnect notification; the registry is
untouched. -/
def endHandler (reg : Registry) (_cid : String) : Registry × List SResponse :=
  (reg, [.disconnectMsg "Connection ended"])

/-- `.on("close", ...)`: deletes the registry entry and sends the
disconnect notification. -/
def closeHandler (reg : Registry) (cid : String) : Registry × List SResponse :=
  (regDel reg cid, [.disconnectMsg "Connection closed"])

/-! ### `formatFileSize` (server/server.js)

`Math.floor(Math.log(bytes) / Math.log(1024))` is modelled exactly as
`Nat.log 1024 bytes` and `toFixed(2)` as exact round-half-up to two
decimals; on the byte counts considered here the float computations
agree with the exact ones. -/

def sizeUnits : List String := ["B", "KB", "MB", "GB", "TB"]

/-- `(num / den).toFixed(2)` for exact naturals. -/
def toFixed2 (num den : Nat) : String :=
  let h := (200 * num + den) / (2 * den)
  toString (h / 100) ++ "." ++ (if h % 100 < 10 then "0" else "") ++ toString (h % 100)

def formatFileSize (bytes : Nat) : String :=
  if bytes = 0 then "0 B"
  else
    let i := Nat.log 1024 bytes
    toFixed2 bytes (1024 ^ i) ++ " " ++ sizeUnits.getD i "undefined"

/-! Codec lemmas. -/

theorem b64DecodeChar_encode_all : ∀ n < 64, b64DecodeChar (b64EncodeChar n) = some n := by
  decide

theorem b64EncodeChar_ne_pad_all : ∀ n < 64, b64EncodeChar n ≠ '=' := by
  decide

/-- Induction along the three-byte chunking of the encoder. -/
theorem threeChunk {P : List Nat → Prop} (h0 : P []) (h1 : ∀ a, P [a])
    (h2 : ∀ a b, P [a, b]) (h3 : ∀ a b c rest, P rest → P (a :: b :: c :: rest)) :
    ∀ l, P l
| [] => h0
| [a] => h1 a
| [a, b] => h2 a b
| a :: b :: c :: rest => h3 a b c rest (threeChunk h0 h1 h2 h3 rest)

/-- Decoding inverts encoding on every byte sequence. -/
theorem b64decode_b64encode : ∀ bs : List Nat, (∀ x ∈ bs, x < 256) →
    b64decode (b64encode bs) = some bs := by
  intro bs
  induction bs using threeChunk with
  | h0 => intro _; rfl
  | h1 a =>
    intro hb
    have ha : a < 256 := hb a (by simp)
    have d1 : a / 4 < 64 := by omega
    have d2 : a % 4 * 16 < 64 := by omega
    simp only [b64encode, b64decode, b64DecodeChar_encode_all _ d1,
      b64DecodeChar_encode_all _ d2, and_self, if_true, Option.some.injEq,
      List.cons.injEq, and_true]
    omega
  | h2 a b =>
    intro hb
    have ha : a < 256 := hb a (by simp)
    have hbb : b < 256 := hb b (by simp)
    have d1 : a / 4 < 64 := by omega
    have d2 : a % 4 * 16 + b / 16 < 64 := by omega
    have d3 : b % 16 * 4 < 64 := by omega
    simp only [b64encode, b64decode, b64DecodeChar_encode_all _ d1,
      b64DecodeChar_encode_all _ d2, b64DecodeChar_encode_all _ d3,
      b64EncodeChar_ne_pad_all _ d3, if_false, ite_false, and_self, if_true,
      Option.some.injEq, List.cons.injEq, and_true]
    omega
  | h3 a b c rest ih =>
    intro hb
    have ha : a < 256 := hb a (by simp)
    have hbb : b < 256 := hb b (by simp)
    have hc : c < 256 := hb c (by simp)
    have hrest := ih (fun x hx => hb x (by simp [hx]))
    have d1 : a / 4 < 64 := by omega
    have d2 : a % 4 * 16 + b / 16 < 64 := by omega
    have d3 : b % 16 * 4 + c / 64 < 64 := by omega
    have d4 : c % 64 < 64 := by omega
    simp only [b64encode, b64decode, b64DecodeChar_encode_all _ d1,
      b64DecodeChar_encode_all _ d2, b64DecodeChar_encode_all _ d3,
      b64DecodeChar_encode_all _ d4, b64EncodeChar_ne_pad_all _ d3,
      b64EncodeChar_ne_pad_all _ d4, if_false, ite_false, hrest,
      Option.some.injEq, List.cons.injEq, eq_self_iff_true, and_true]
    omega

/-- The composite wire trip of claim C3: the client encodes the bytes for
`upload_file`, the server decodes them into the written buffer; the
server then re-encodes the stored bytes for `file_content` and the
client decodes them. -/
def uploadDownloadRoundTrip (bytes : List Nat) : Option (List Nat) :=
  (b64decode (b64encode bytes)).bind fun stored => b64decode (b64encode stored)

/-! Registry lemmas. -/

theorem regGet_regDel_self (reg : Registry) (cid : String) :
    regGet (regDel reg cid) cid = none := by
  induction reg with
  | nil => rfl
  | cons p rest ih =>
    obtain ⟨k, v⟩ := p
    simp only [regDel]
    by_cases hk : k = cid
    · rw [if_pos hk]
      exact ih
    · rw [if_neg hk]
      simp only [regGet]
      rw [if_neg (fun he => hk he.symm)]
      exact ih

theorem regGet_regSet_self (reg : Registry) (cid : String) (v : SEntry) :
    regGet (regSet reg cid v) cid = some v := by
  induction reg with
  | nil => simp [regSet, regGet]
  | cons p rest ih =>
    obtain ⟨k, v0⟩ := p
    simp only [regSet]
    by_cases hk : cid = k
    · simp [hk, regGet]
    · simp only [hk, if_false, regGet]
      exact ih

/-! ### Claims -/

/-- Claim C3: uploading a byte sequence through the client's base64 encode
path and downloading it back through the decode path returns the bytes
unchanged, for every byte sequence including the empty one and bytes
0x00 and 0xFF; decode after encode is the identity. -/
theorem claim3_upload_download_roundtrip (bs : List Nat) (hb : ∀ x ∈ bs, x < 256) :
    uploadDownloadRoundTrip bs = some bs ∧ b64decode (b64encode bs) = some bs := by
  have h := b64decode_b64encode bs hb
  refine ⟨?_, h⟩
  unfold uploadDownloadRoundTrip
  rw [h]
  exact h

/-- Witness for C3 at a binary sequence containing 0x00 and 0xFF and at
the empty sequence. -/
theorem claim3_witness :
    ((∀ x ∈ [0, 255, 7, 128], x < 256)
      ∧ uploadDownloadRoundTrip [0, 255, 7, 128] = some [0, 255, 7, 128]
      ∧ b64decode (b64encode [0, 255, 7, 128]) = some [0, 255, 7, 128])
    ∧ ((∀ x ∈ ([] : List Nat), x < 256)
      ∧ uploadDownloadRoundTrip [] = some []
      ∧ b64decode (b64encode ([] : List Nat)) = some []) :=
  ⟨⟨by decide, claim3_upload_download_roundtrip [0, 255, 7, 128] (by decide)⟩,
   ⟨by decide, claim3_upload_download_roundtrip [] (by decide)⟩⟩

/-- Claim C4 counterexample: on the remote "end" event the registry entry
of the channel is NOT removed — the handler only sends the disconnect
notification, so a channel with a registered session still has it
afterwards, contradicting the claim that "end" removes the entry. -/
theorem claim4_counterexample_end_keeps_entry :
    (endHandler [("chan1", ⟨true⟩)] "chan1").2 = [.disconnectMsg "Connection ended"]
    ∧ regGet (endHandler [("chan1", ⟨true⟩)] "chan1").1 "chan1" = some ⟨true⟩ :=
  ⟨rfl, rfl⟩

/-- Claim C4 (amended): on remote "ready" the registry is populated for the
channel (with the session handle attached iff the sftp callback
succeeded); on remote "error" a connect-failure response is emitted and
the registry is untouched (so no entry is created); on remote "close"
the entry is removed and a disconnect notification is emitted; on
remote "end" only a disconnect notification is emitted and the entry is
NOT removed. -/
theorem claim4_lifecycle_amended (reg : Registry) (cid : String)
    (sftpErr : Option String) (m : String) :
    regGet (readyHandler reg cid sftpErr).1 cid = some ⟨sftpErr.isNone⟩
    ∧ ((readyHandler reg cid none).2 = [.connectSuccess cid]
        ∧ ∀ msg, (readyHandler reg cid (some msg)).2 = [.connectError msg])
    ∧ errorHandler reg cid m = (reg, [.connectError m])
    ∧ endHandler reg cid = (reg, [.disconnectMsg "Connection ended"])
    ∧ (regGet (closeHandler reg cid).1 cid = none
        ∧ (closeHandler reg cid).2 = [.disconnectMsg "Connection closed"]) := by
  refine ⟨?_, ⟨rfl, fun msg => rfl⟩, rfl, rfl, regGet_regDel_self reg cid, rfl⟩
  cases sftpErr with
  | none =>
    show regGet (regSet (regSet reg cid ⟨false⟩) cid ⟨true⟩) cid = some ⟨true⟩
    exact regGet_regSet_self ..
  | some msg =>
    show regGet (regSet reg cid ⟨false⟩) cid = some ⟨false⟩
    exact regGet_regSet_self ..

/-- The five command kinds that require a registered session. -/
def needsSession : SCommand → Bool
| .listFilesCmd _ => true
| .downloadFileCmd _ => true
| .uploadFileCmd _ _ => true
| .deleteFileCmd _ _ => true
| .createDirectoryCmd _ => true
| _ => false

/-- Claim C5: every command other than connect and disconnect, issued on a
channel with no registered session, produces exactly the typed error
response and performs no remote operation; registry and connection
state are unchanged. -/
theorem claim5_no_session_guard (reg : Registry) (c : ServerConn) (cmd : SCommand)
    (hneed : needsSession cmd = true)
    (hno : hasSession reg c.connectionId = false) :
    handleCommand reg c cmd = noSessionResult reg c
    ∧ (handleCommand reg c cmd).registry = reg
    ∧ (handleCommand reg c cmd).conn = c
    ∧ (handleCommand reg c cmd).remoteOps = []
    ∧ (handleCommand reg c cmd).responses = [.errorMsg "No active SFTP connection"] := by
  have heq : handleCommand reg c cmd = noSessionResult reg c := by
    cases cmd with
    | listFilesCmd path => simp [handleCommand, hno]
    | downloadFileCmd rp => simp [handleCommand, hno]
    | uploadFileCmd rp content => simp [handleCommand, hno]
    | deleteFileCmd p isDir => simp [handleCommand, hno]
    | createDirectoryCmd p => simp [handleCommand, hno]
    | connectCmd host port u pw => simp [needsSession] at hneed
    | disconnectCmd => simp [needsSession] at hneed
    | other kind => simp [needsSession] at hneed
  exact ⟨heq, by rw [heq]; rfl, by rw [heq]; rfl, by rw [heq]; rfl, by rw [heq]; rfl⟩

/-- Witness for C5: a `list_files` command on an empty registry. -/
theorem claim5_witness :
    (needsSession (.listFilesCmd none) = true
      ∧ hasSession [] "c1" = false)
    ∧ handleCommand [] ⟨"c1", false⟩ (.listFilesCmd none) = noSessionResult [] ⟨"c1", false⟩
    ∧ (handleCommand [] ⟨"c1", false⟩ (.listFilesCmd none)).registry = []
    ∧ (handleCommand [] ⟨"c1", false⟩ (.listFilesCmd none)).conn = ⟨"c1", false⟩
    ∧ (handleCommand [] ⟨"c1", false⟩ (.listFilesCmd none)).remoteOps = []
    ∧ (handleCommand [] ⟨"c1", false⟩ (.listFilesCmd none)).responses
        = [.errorMsg "No active SFTP connection"] :=
  ⟨⟨by decide, by decide⟩,
    claim5_no_session_guard [] ⟨"c1", false⟩ (.listFilesCmd none) (by decide) (by decide)⟩

/-- Claim C7 counterexample: the dispatcher answers an unrecognized kind
with error text "Unknown command" (capital U), not "unknown command" as
the claim states. -/
theorem claim7_counterexample_capitalization :
    (handleCommand [] ⟨"c1", false⟩ (.other "bogus")).responses
      = [.errorMsg "Unknown command"]
    ∧ "Unknown command" ≠ "unknown command" :=
  ⟨rfl, by decide⟩

/-- Claim C7 (amended): for every message whose type is none of the seven
recognized command kinds, the dispatcher responds with an error whose
text is "Unknown command", changing nothing else. -/
theorem claim7_unknown_command_amended (reg : Registry) (c : ServerConn) (kind : String) :
    handleCommand reg c (.other kind)
      = { registry := reg, conn := c,
          responses := [.errorMsg "Unknown command"], remoteOps := [] } := rfl

/-- Claim C8: an inbound message that does not parse is answered with the
generic error response; the handler is a total function (it cannot
throw), and the registry — hence every other channel's session — is
untouched. -/
theorem claim8_malformed_message (reg : Registry) (c : ServerConn) :
    handleRaw reg c none
      = { registry := reg, conn := c,
          responses := [.errorMsg "Invalid message format or server error"],
          remoteOps := [] }
    ∧ ∀ ch, regGet (handleRaw reg c none).registry ch = regGet reg ch :=
  ⟨rfl, fun _ => rfl⟩

/-! `Nat.log 1024` at the concrete byte counts of claim C6. -/

theorem log1024_1023 : Nat.log 1024 1023 = 0 :=
  Nat.log_eq_of_pow_le_of_lt_pow (by norm_num) (by norm_num)

theorem log1024_1024 : Nat.log 1024 1024 = 1 :=
  Nat.log_eq_of_pow_le_of_lt_pow (by norm_num) (by norm_num)

theorem log1024_1048576 : Nat.log 1024 1048576 = 2 :=
  Nat.log_eq_of_pow_le_of_lt_pow (by norm_num) (by norm_num)

/-- Claim C6: `formatFileSize` maps 0 to "0 B", 1023 to "1023.00 B", 1024
to "1.00 KB" and 1048576 to "1.00 MB"; in general, every positive byte
count below 1024^5 is rendered with two decimals over the base-1024
unit B/KB/MB/GB/TB of its magnitude: the unit index is the base-1024
logarithm, so the displayed mantissa `bytes / 1024 ^ i` lies in
[1, 1024). -/
theorem claim6_format_file_size :
    formatFileSize 0 = "0 B"
    ∧ formatFileSize 1023 = "1023.00 B"
    ∧ formatFileSize 1024 = "1.00 KB"
    ∧ formatFileSize 1048576 = "1.00 MB"
    ∧ ∀ b : Nat, 0 < b → b < 1024 ^ 5 →
        1024 ^ Nat.log 1024 b ≤ b
        ∧ b < 1024 ^ (Nat.log 1024 b + 1)
        ∧ Nat.log 1024 b < 5
        ∧ formatFileSize b
            = toFixed2 b (1024 ^ Nat.log 1024 b) ++ " "
              ++ sizeUnits.getD (Nat.log 1024 b) "undefined" := by
  refine ⟨rfl, ?_, ?_, ?_, ?_⟩
  · show (if (1023 : Nat) = 0 then "0 B" else _) = _
    rw [if_neg (by norm_num)]
    rw [log1024_1023]
    rfl
  · show (if (1024 : Nat) = 0 then "0 B" else _) = _
    rw [if_neg (by norm_num)]
    rw [log1024_1024]
    rfl
  · show (if (1048576 : Nat) = 0 then "0 B" else _) = _
    rw [if_neg (by norm_num)]
    rw [log1024_1048576]
    rfl
  · intro b hb0 hb5
    have hne : b ≠ 0 := by omega
    have h1 : 1024 ^ Nat.log 1024 b ≤ b := Nat.pow_log_le_self 1024 hne
    have h2 : b < 1024 ^ (Nat.log 1024 b + 1) := Nat.lt_pow_succ_log_self (by norm_num) b
    have h3 : Nat.log 1024 b < 5 := Nat.log_lt_of_lt_pow hne hb5
    refine ⟨h1, h2, h3, ?_⟩
    show (if b = 0 then "0 B" else _) = _
    rw [if_neg hne]

/-- Witness for C6 at 5000 bytes. -/
theorem claim6_witness :
    (0 < 5000 ∧ 5000 < 1024 ^ 5)
    ∧ (1024 ^ Nat.log 1024 5000 ≤ 5000
        ∧ 5000 < 1024 ^ (Nat.log 1024 5000 + 1)
        ∧ Nat.log 1024 5000 < 5
        ∧ formatFileSize 5000
            = toFixed2 5000 (1024 ^ Nat.log 1024 5000) ++ " "
              ++ sizeUnits.getD (Nat.log 1024 5000) "undefined") :=
  ⟨⟨by norm_num, by norm_num⟩,
    claim6_format_file_size.2.2.2.2 5000 (by norm_num) (by norm_num)⟩

/-- Delivering the disconnect message to a client whose table holds the
`disconnect()` wrapper clears the connection flag and the token. -/
theorem deliverDisconnect_clears (s : ClientState) (l : List CHandler)
    (hget : tblGet s.table "disconnect" = some (l ++ [.onceH 5])) :
    (deliverDisconnect s).isConnected = false
    ∧ (deliverDisconnect s).connectionId = none := by
  unfold deliverDisconnect SFTPClient.emitEvent
  rw [hget]
  simp

/-- Claim C1: evaluation at the failing input.  The server side accepts the
credentials and emits `connect_success` carrying the channel identity,
but the client's `once("connect_success", ...)` registration is
silently dropped (the constructor's listener table has no
`connect_success` key), so delivering the server's success message to
the client invokes no callback and changes nothing: `isConnected` stays
false, the connect promise stays pending until its 15 s timeout
rejects, and `listFiles("/")` is rejected by the connection guard. -/
theorem claim1_connect_never_resolves :
    connectRegister freshClient.table = freshClient.table
    ∧ (readyHandler [] "abc" none).2 = [.connectSuccess "abc"]
    ∧ (SFTPClient.emitEvent (connectRegister freshClient.table) "connect_success").2 = []
    ∧ deliverConnectSuccess "abc"
        { freshClient with table := connectRegister freshClient.table }
      = { freshClient with table := connectRegister freshClient.table }
    ∧ ({ freshClient with table := connectRegister freshClient.table }).isConnected = false
    ∧ listFilesAllowed { freshClient with table := connectRegister freshClient.table }
      = false := by
  refine ⟨by decide, rfl, by decide, by decide, rfl, rfl⟩

/-- Claim C2: in the trace model of one pending request (success kind `sk`,
error kind `ek`, fresh one-shot wrappers 0 and 1) every run settles the
promise at most once, every completed run (timeout fired or cleared)
settles it exactly once, after a one-shot handler fulfills the request
first neither one-shot handler remains registered and the timeout is
cleared, and no later message or timeout changes the fulfillment. -/
theorem claim2_exactly_one_fulfillment (sk ek : String) (t0 : EventTable)
    (events : List REvent)
    (hsk : tblGet t0 sk = none)
    (hfresh : ∀ p ∈ t0, CHandler.onceH 0 ∉ p.2 ∧ CHandler.onceH 1 ∉ p.2) :
    (reqRun (pendingStart sk ek t0) events).settleCount ≤ 1
    ∧ ((reqRun (pendingStart sk ek t0) events).timeoutActive = false →
        (reqRun (pendingStart sk ek t0) events).settleCount = 1)
    ∧ (((reqRun (pendingStart sk ek t0) events).settled = some .success
        ∨ (reqRun (pendingStart sk ek t0) events).settled = some .failure) →
        ¬ registered (reqRun (pendingStart sk ek t0) events).table sk (.onceH 0)
        ∧ ¬ registered (reqRun (pendingStart sk ek t0) events).table ek (.onceH 1)
        ∧ (reqRun (pendingStart sk ek t0) events).timeoutActive = false)
    ∧ (∀ f more, (reqRun (pendingStart sk ek t0) events).settled = some f →
        (reqRun (reqRun (pendingStart sk ek t0) events) more).settled = some f) := by
  obtain ⟨⟨p1, p2, p3⟩, sk_none, no_h0, h1_only, h1_gone⟩ :=
    reqRun_inv sk ek _ events (pendingStart_inv sk ek t0 hsk hfresh)
  refine ⟨?_, ?_, ?_, ?_⟩
  · rw [p1]
    split <;> omega
  · intro ht
    rw [p1, if_pos (p2 ht)]
  · intro hcase
    exact ⟨not_registered_of_none _ _ _ sk_none, h1_gone hcase, p3 hcase⟩
  · intro f more hs
    exact reqRun_settled_some _ more f hs

/-- Witness for C2: the `listFiles` kinds on the fresh client table, with a
success response, an error response and the timer firing. -/
theorem claim2_witness :
    (tblGet initCTable "file_list" = none
      ∧ ∀ p ∈ initCTable, CHandler.onceH 0 ∉ p.2 ∧ CHandler.onceH 1 ∉ p.2)
    ∧ ((reqRun (pendingStart "file_list" "error" initCTable)
          [REvent.msg "file_list", REvent.msg "error", REvent.timerFire]).settleCount ≤ 1
      ∧ ((reqRun (pendingStart "file_list" "error" initCTable)
          [REvent.msg "file_list", REvent.msg "error", REvent.timerFire]).timeoutActive = false →
          (reqRun (pendingStart "file_list" "error" initCTable)
            [REvent.msg "file_list", REvent.msg "error", REvent.timerFire]).settleCount = 1)
      ∧ (((reqRun (pendingStart "file_list" "error" initCTable)
            [REvent.msg "file_list", REvent.msg "error", REvent.timerFire]).settled
              = some .success
          ∨ (reqRun (pendingStart "file_list" "error" initCTable)
            [REvent.msg "file_list", REvent.msg "error", REvent.timerFire]).settled
              = some .failure) →
          ¬ registered (reqRun (pendingStart "file_list" "error" initCTable)
              [REvent.msg "file_list", REvent.msg "error", REvent.timerFire]).table
              "file_list" (.onceH 0)
          ∧ ¬ registered (reqRun (pendingStart "file_list" "error" initCTable)
              [REvent.msg "file_list", REvent.msg "error", REvent.timerFire]).table
              "error" (.onceH 1)
          ∧ (reqRun (pendingStart "file_list" "error" initCTable)
              [REvent.msg "file_list", REvent.msg "error", REvent.timerFire]).timeoutActive
              = false)
      ∧ (∀ f more, (reqRun (pendingStart "file_list" "error" initCTable)
            [REvent.msg "file_list", REvent.msg "error", REvent.timerFire]).settled = some f →
          (reqRun (reqRun (pendingStart "file_list" "error" initCTable)
            [REvent.msg "file_list", REvent.msg "error", REvent.timerFire]) more).settled
            = some f)) :=
  ⟨⟨by decide, by decide⟩,
    claim2_exactly_one_fulfillment "file_list" "error" initCTable
      [REvent.msg "file_list", REvent.msg "error", REvent.timerFire] (by decide) (by decide)⟩

/-- Claim C9: client side — after a full `disconnect()` round the client is
not connected; a second `disconnect()` finds no active session, returns
an immediately resolved promise without changing anything (the model is
a total function, so nothing throws), and `isConnected` is false after
each call.  Server side — processing a disconnect command always emits
the disconnect notification, ends the remote connection when one is
held, and leaves no registry entry for the channel (the hypothesis is
the registry/handler coupling maintained by the dispatcher: an entry
exists only while the handler holds a client). -/
theorem claim9_disconnect_idempotent (s : ClientState) (l : List CHandler)
    (reg : Registry) (c : ServerConn)
    (hdis : tblGet s.table "disconnect" = some l)
    (hcouple : c.hasClient = false → regGet reg c.connectionId = none) :
    (disconnectFlow s).isConnected = false
    ∧ disconnectCall (disconnectFlow s) = (disconnectFlow s, true)
    ∧ (disconnectFlow (disconnectFlow s)).isConnected = false
    ∧ (handleCommand reg c .disconnectCmd).responses = [.disconnectMsg "Disconnected"]
    ∧ (c.hasClient = true → (handleCommand reg c .disconnectCmd).remoteOps = [.endConn])
    ∧ regGet (handleCommand reg c .disconnectCmd).registry c.connectionId = none := by
  have hnotconn : ∀ x : ClientState, x.isConnected = false → disconnectFlow x = x := by
    intro x hx
    have hcall : disconnectCall x = (x, true) := by
      unfold disconnectCall
      rw [if_neg (by simp [hx])]
    unfold disconnectFlow
    rw [hcall]
    rfl
  have hconn : (disconnectFlow s).isConnected = false := by
    by_cases hc : s.isConnected
    · have hcall : disconnectCall s
          = ({ s with table := SFTPClient.onceEvent s.table "disconnect" 5 }, false) := by
        unfold disconnectCall
        rw [if_pos hc]
      have hflow : disconnectFlow s
          = deliverDisconnect { s with table := SFTPClient.onceEvent s.table "disconnect" 5 } := by
        unfold disconnectFlow
        rw [hcall]
        rfl
      rw [hflow]
      refine (deliverDisconnect_clears _ l ?_).1
      exact tblGet_onEvent_self s.table "disconnect" _ l hdis
    · rw [hnotconn s (by simpa using hc)]
      simpa using hc
  have hsecond : disconnectCall (disconnectFlow s) = (disconnectFlow s, true) := by
    unfold disconnectCall
    rw [hconn]
    rfl
  have hcmd : handleCommand reg c .disconnectCmd = (if c.hasClient then
      { registry := regDel reg c.connectionId, conn := { c with hasClient := false },
        responses := [.disconnectMsg "Disconnected"], remoteOps := [.endConn] }
    else
      { registry := reg, conn := c,
        responses := [.disconnectMsg "Disconnected"], remoteOps := [] }) := rfl
  refine ⟨hconn, hsecond, ?_, ?_, ?_, ?_⟩
  · rw [hnotconn _ hconn]
    exact hconn
  · rw [hcmd]
    by_cases hcl : c.hasClient
    · rw [if_pos hcl]
    · rw [if_neg hcl]
  · intro hcl
    rw [hcmd, if_pos hcl]
  · rw [hcmd]
    by_cases hcl : c.hasClient
    · rw [if_pos hcl]
      exact regGet_regDel_self reg c.connectionId
    · rw [if_neg hcl]
      exact hcouple (by simpa using hcl)

/-- A connected client state used by the C9 witness. -/
def demoClient : ClientState :=
  { isConnected := true, connectionId := some "abc", table := initCTable }

/-- Witness for C9 at a connected client with an empty `disconnect`
listener list and a server channel holding a client and an entry. -/
theorem claim9_witness :
    (tblGet demoClient.table "disconnect" = some []
      ∧ ((⟨"c1", true⟩ : ServerConn).hasClient = false →
          regGet [("c1", ⟨true⟩)] (⟨"c1", true⟩ : ServerConn).connectionId = none))
    ∧ ((disconnectFlow demoClient).isConnected = false
      ∧ disconnectCall (disconnectFlow demoClient) = (disconnectFlow demoClient, true)
      ∧ (disconnectFlow (disconnectFlow demoClient)).isConnected = false
      ∧ (handleCommand [("c1", ⟨true⟩)] ⟨"c1", true⟩ .disconnectCmd).responses
          = [.disconnectMsg "Disconnected"]
      ∧ ((⟨"c1", true⟩ : ServerConn).hasClient = true →
          (handleCommand [("c1", ⟨true⟩)] ⟨"c1", true⟩ .disconnectCmd).remoteOps = [.endConn])
      ∧ regGet (handleCommand [("c1", ⟨true⟩)] ⟨"c1", true⟩ .disconnectCmd).registry
          (⟨"c1", true⟩ : ServerConn).connectionId = none) :=
  ⟨⟨by decide, by decide⟩,
    claim9_disconnect_idempotent demoClient [] [("c1", ⟨true⟩)] ⟨"c1", true⟩
      (by decide) (by decide)⟩

/-- Claim C10: for an event name with no entry in the listener table — in
particular every name outside the eight constructor keys — `on`, `once`
and `off` leave the table unchanged and `_emitEvent` invokes no
callback; the key set of the table is invariant under all four
operations, so messages tagged with any other kind are silently
dropped by the client forever. -/
theorem claim10_unknown_event_keys (t : EventTable) (e : String) (h : CHandler) (id : Nat)
    (he : tblGet t e = none) :
    SFTPClient.onEvent t e h = t
    ∧ SFTPClient.onceEvent t e id = t
    ∧ SFTPClient.offEvent t e h = t
    ∧ SFTPClient.emitEvent t e = (t, [])
    ∧ (∀ t2 e2 h2 i2, keysOf (SFTPClient.onEvent t2 e2 h2) = keysOf t2
        ∧ keysOf (SFTPClient.onceEvent t2 e2 i2) = keysOf t2
        ∧ keysOf (SFTPClient.offEvent t2 e2 h2) = keysOf t2
        ∧ keysOf (SFTPClient.emitEvent t2 e2).1 = keysOf t2)
    ∧ (∀ e2, e2 ∉ clientEventKeys → tblGet initCTable e2 = none) := by
  refine ⟨onEvent_missing t e h he, onEvent_missing t e _ he, offEvent_missing t e h he,
    emitEvent_missing t e he, ?_, tblGet_initCTable_none⟩
  intro t2 e2 h2 i2
  exact ⟨onEvent_keys t2 e2 h2, onEvent_keys t2 e2 _, offEvent_keys t2 e2 h2,
    emitEvent_keys t2 e2⟩

/-- Witness for C10 at the message kind `file_list` on the constructor
table. -/
theorem claim10_witness :
    tblGet initCTable "file_list" = none
    ∧ (SFTPClient.onEvent initCTable "file_list" (.plainH 0) = initCTable
      ∧ SFTPClient.onceEvent initCTable "file_list" 0 = initCTable
      ∧ SFTPClient.offEvent initCTable "file_list" (.plainH 0) = initCTable
      ∧ SFTPClient.emitEvent initCTable "file_list" = (initCTable, [])
      ∧ (∀ t2 e2 h2 i2, keysOf (SFTPClient.onEvent t2 e2 h2) = keysOf t2
          ∧ keysOf (SFTPClient.onceEvent t2 e2 i2) = keysOf t2
          ∧ keysOf (SFTPClient.offEvent t2 e2 h2) = keysOf t2
          ∧ keysOf (SFTPClient.emitEvent t2 e2).1 = keysOf t2)
      ∧ (∀ e2, e2 ∉ clientEventKeys → tblGet initCTable e2 = none)) :=
  ⟨by decide, claim10_unknown_event_keys initCTable "file_list" (.plainH 0) 0 (by decide)⟩

end SFTPVerify
